import Mathlib

/-!
# Verification of the WireDI DI-configuration validator

Shallow embedding of the `ValidationEngine` of the WireDI TypeScript
language-service plugin (the class in `src/LanguageServer/plugin/`):
`validate`, `validateConfig`, `collectClassesToValidate`,
`validateClassDependencies`, `checkTypeCompatibility`,
`createMissingDependencyError` and `convertToDiagnostics`, together with a
model of `ConfigurationAnalyzer.resolveAllProvidedTokens` (whose body is not
part of the analysed sources and is therefore modelled from the
specification's resolution algorithm).

Symbols (`ts.Symbol`) and types (`ts.Type`) are identity-bearing handles of
the host compiler; they are embedded as natural numbers.  Source positions
(`node.getStart()` / `node.getWidth()` / `node.getSourceFile()`) are embedded
as a record of file name, start offset and width.  The host's structural
assignability relation `checker.isTypeAssignableTo` and `checker.typeToString`
are parameters.  JavaScript `Map` objects are embedded as association lists
with `Map.set` semantics (update in place, insert at the end), which preserves
the insertion-order iteration the engine relies on.  The unbounded recursion
of the engine over the partial-extension graph is embedded with explicit
fuel returning `Option`: `none` models a run that does not terminate (a
stack overflow aborting the pass in the real program).
-/

namespace WireDI

/-- A DI token: the identity of the underlying declaration (a `ts.Symbol`,
embedded as a number) plus the display name used in messages.  Two tokens are
the same map key iff their ids are equal, never by display name. -/
structure Token where
  id : Nat
  displayName : String
  deriving DecidableEq

/-- A source node: the file it belongs to, its start offset and its width.
Embeds the `ts.Node` operations `getSourceFile`, `getStart`, `getWidth`. -/
structure Node where
  file : String
  start : Nat
  width : Nat
  deriving DecidableEq

/-- `node.getSourceFile()`. -/
def Node.getSourceFile (n : Node) : String := n.file

/-- `node.getStart(sourceFile)`: the start offset.  The engine sometimes
passes a source file other than the node's own; the offset returned is the
node's offset (positions are abstracted as absolute offsets). -/
def Node.getStart (n : Node) (_sourceFile : String) : Nat := n.start

/-- `node.getWidth(sourceFile)`. -/
def Node.getWidth (n : Node) (_sourceFile : String) : Nat := n.width

/-- The registration kind of a binding: a provider class, a factory, or a
value (`registrationType` in the source; factories and values carry no
statically known output type). -/
inductive RegistrationType where
  | providerClass
  | factory
  | value
  deriving DecidableEq

/-- A binding inside a configuration (`RegisteredProvider`): the token it
satisfies, its registration kind, the provider class's symbol and output type
when statically known, the provider class's name for messages, and the source
node of the registration. -/
structure RegisteredProvider where
  token : Token
  registrationType : RegistrationType
  providerClass : Option Nat
  providerType : Option Nat
  providerClassName : Option String
  node : Node
  deriving DecidableEq

/-- One constructor parameter of an analysed class (`RequiredDependency`):
the token it requires, the declared (expected) type when statically known,
its ordinal position, and the parameter's declaration node. -/
structure RequiredDependency where
  token : Token
  expectedType : Option Nat
  parameterIndex : Nat
  parameterNode : Node
  deriving DecidableEq

/-- A class declaration with its ordered dependency list (`AnalyzedClass`). -/
structure AnalyzedClass where
  symbol : Nat
  name : String
  dependencies : List RequiredDependency
  deriving DecidableEq

/-- An (event token, listener token) pair (`ListenerBinding`). -/
structure ListenerBinding where
  event : Token
  listener : Token
  deriving DecidableEq

/-- The kind of a configuration literal: `'builder'` or `'partial'`. -/
inductive ConfigType where
  | builder
  /-- the source's `'partial'` kind -/
  | partialCfg
  deriving DecidableEq

/-- One configuration literal (`AnalyzedConfig`): its declaration symbol
(the key of the configuration map), kind, optional builder identifier and
variable name, its source file, locally registered providers, listener
bindings, and the symbols of the configurations it extends. -/
structure AnalyzedConfig where
  symbol : Nat
  type : ConfigType
  builderId : Option String
  variableName : Option String
  sourceFile : String
  localProviders : List RegisteredProvider
  listeners : List ListenerBinding
  parentConfigs : List Nat
  deriving DecidableEq

/-- A related location attached to a validation error. -/
structure RelatedInfo where
  file : String
  start : Nat
  length : Nat
  message : String
  deriving DecidableEq

/-- An internal validation error (`DIValidationError`): message, primary
file/offset/width, optional related locations. -/
structure DIValidationError where
  message : String
  file : String
  start : Nat
  length : Nat
  relatedInformation : Option (List RelatedInfo)
  deriving DecidableEq

/-- `ts.DiagnosticCategory`. -/
inductive DiagnosticCategory where
  | warning
  | error
  | suggestion
  | message
  deriving DecidableEq

/-- A related-information record of a host diagnostic. -/
structure RelatedDiagnostic where
  file : String
  start : Nat
  length : Nat
  messageText : String
  category : DiagnosticCategory
  code : Nat
  deriving DecidableEq

/-- A host diagnostic (`ts.Diagnostic`) as the engine populates it. -/
structure Diagnostic where
  file : String
  start : Nat
  length : Nat
  messageText : String
  category : DiagnosticCategory
  code : Nat
  source : Option String
  relatedInformation : Option (List RelatedDiagnostic)
  deriving DecidableEq

/-- The host's type facilities the engine consumes: the structural
assignability relation and type rendering (`ts.TypeChecker`). -/
structure TypeChecker where
  isTypeAssignableTo : Nat → Nat → Bool
  typeToString : Nat → String

/-! ## JavaScript `Map` objects as association lists

The engine keys maps by symbol identity.  `mapSet` has `Map.set` semantics:
an existing key is updated in place, a new key is appended, preserving
insertion-order iteration. -/

/-- `Map.get`: the value stored under `k`, if any. -/
def lookupEntry {β : Type} : List (Nat × β) → Nat → Option β
  | [], _ => none
  | (k', v) :: rest, k => if k' = k then some v else lookupEntry rest k

/-- `Map.has`. -/
def hasKey {β : Type} (m : List (Nat × β)) (k : Nat) : Bool :=
  (lookupEntry m k).isSome

/-- `Map.set`: update in place if the key exists, append otherwise. -/
def mapSet {β : Type} : List (Nat × β) → Nat → β → List (Nat × β)
  | [], k, v => [(k, v)]
  | (k', v') :: rest, k, v =>
    if k' = k then (k, v) :: rest else (k', v') :: mapSet rest k v

/-- JavaScript `a || b` on optional strings: the empty string is falsy. -/
def jsOrString (a b : Option String) : Option String :=
  match a with
  | some s => if s = "" then b else some s
  | none => b

/-- `config.builderId || config.variableName || 'unknown'`. -/
def configDisplayId (config : AnalyzedConfig) : String :=
  (jsOrString config.builderId (jsOrString config.variableName (some "unknown"))).getD ""

/-! ## Error construction (`ValidationEngine`) -/

/-- `createMissingDependencyError`: the missing-dependency error for one
unsatisfied dependency of `analyzedClass`, anchored on `provider.node` (the
provider that pulled the class in) — but with the `file` field set to
`config.sourceFile`, exactly as the source does. -/
def createMissingDependencyError (analyzedClass : AnalyzedClass)
    (dependency : RequiredDependency) (provider : RegisteredProvider)
    (config : AnalyzedConfig) : DIValidationError :=
  let className := analyzedClass.name
  let tokenName := dependency.token.displayName
  let builderId := configDisplayId config
  let paramIndex := dependency.parameterIndex
  let errorNode := provider.node
  let errorSourceFile := config.sourceFile
  { message :=
      "[WireDI] Missing dependency: '" ++ className ++ "' requires '" ++
        tokenName ++ "' but it's not registered\n\n" ++
      "The service '" ++ className ++ "' expects '" ++ tokenName ++
        "' as parameter #" ++ toString paramIndex ++ ", " ++
      "but this token is not provided in the '" ++ builderId ++
        "' configuration or its partials.\n\n" ++
      "💡 Fix: Add '\x7b token: " ++ tokenName ++
        " \x7d' to your injections array."
    file := errorSourceFile
    start := errorNode.getStart errorSourceFile
    length := errorNode.getWidth errorSourceFile
    relatedInformation := some [
      { file := dependency.parameterNode.getSourceFile
        start := dependency.parameterNode.start
        length := dependency.parameterNode.width
        message := "The dependency '" ++ tokenName ++ "' is required here" }] }

/-- `checkTypeCompatibility`: `none` when no error is reported (missing
static types, or a factory/value binding, or assignable types); otherwise the
type-mismatch error, anchored on the provider's registration node in the file
where the registration appears. -/
def checkTypeCompatibility (checker : TypeChecker)
    (dependency : RequiredDependency) (registeredProvider : RegisteredProvider)
    (analyzedClass : AnalyzedClass) (config : AnalyzedConfig) :
    Option DIValidationError :=
  match dependency.expectedType, registeredProvider.providerType with
  | some expectedType, some providerType =>
    if registeredProvider.registrationType = RegistrationType.factory ∨
        registeredProvider.registrationType = RegistrationType.value then
      none
    else
      let isCompatible := checker.isTypeAssignableTo providerType expectedType
      if isCompatible then
        none
      else
        let expectedTypeName := checker.typeToString expectedType
        let providerTypeName := checker.typeToString providerType
        let className := analyzedClass.name
        let tokenName := dependency.token.displayName
        let paramIndex := dependency.parameterIndex
        let providerName := (jsOrString registeredProvider.providerClassName
          (some "unknown")).getD ""
        let errorNode := registeredProvider.node
        let errorSourceFile := errorNode.getSourceFile
        some
          { message :=
              "[WireDI] Type mismatch: Provider doesn't match expected type\n\n" ++
              "Service '" ++ className ++ "' expects type '" ++ expectedTypeName ++
                "' for '" ++ tokenName ++ "' (parameter #" ++
                toString paramIndex ++ "),\n" ++
              "but the registered provider '" ++ providerName ++ "' " ++
              "returns '" ++ providerTypeName ++ "'.\n\n" ++
              "💡 Fix: Register a provider that implements '" ++
                expectedTypeName ++ "' or use a factory to adapt the type."
            file := errorSourceFile
            start := errorNode.getStart errorSourceFile
            length := errorNode.getWidth errorSourceFile
            relatedInformation := some [
              { file := dependency.parameterNode.getSourceFile
                start := dependency.parameterNode.start
                length := dependency.parameterNode.width
                message := "The type '" ++ expectedTypeName ++
                  "' is expected here" }] }
  | _, _ => none

/-- The errors one dependency contributes inside `validateClassDependencies`'s
loop: a missing-dependency error when its token id is absent from
`providedTokens`, otherwise the result of the type-compatibility check. -/
def dependencyErrors (checker : TypeChecker)
    (providedTokens : List (Nat × RegisteredProvider))
    (analyzedClass : AnalyzedClass) (provider : RegisteredProvider)
    (config : AnalyzedConfig) (dependency : RequiredDependency) :
    List DIValidationError :=
  match lookupEntry providedTokens dependency.token.id with
  | none => [createMissingDependencyError analyzedClass dependency provider config]
  | some registeredProvider =>
    (checkTypeCompatibility checker dependency registeredProvider analyzedClass config).toList

/-- `validateClassDependencies`: the loop over the class's dependencies,
appending each dependency's contribution in order. -/
def validateClassDependencies (checker : TypeChecker)
    (analyzedClass : AnalyzedClass)
    (providedTokens : List (Nat × RegisteredProvider))
    (provider : RegisteredProvider) (config : AnalyzedConfig) :
    List DIValidationError :=
  analyzedClass.dependencies.flatMap
    (dependencyErrors checker providedTokens analyzedClass provider config)

/-! ## `convertToDiagnostics` -/

/-- The per-error body of `convertToDiagnostics`'s `map`: the host diagnostic
with the fixed rule identity (code `90001`, source `'di-validator'`), plus
the converted related information when present and non-empty. -/
def toDiagnostic (error : DIValidationError) : Diagnostic :=
  let base : Diagnostic :=
    { file := error.file
      start := error.start
      length := error.length
      messageText := error.message
      category := DiagnosticCategory.error
      code := 90001
      source := some "di-validator"
      relatedInformation := none }
  match error.relatedInformation with
  | some infos =>
    if infos.length > 0 then
      { base with relatedInformation := some (infos.map (fun info =>
          { file := info.file
            start := info.start
            length := info.length
            messageText := info.message
            category := DiagnosticCategory.message
            code := 90001 })) }
    else base
  | none => base

/-- `convertToDiagnostics`: the pure format mapping over the error list. -/
def convertToDiagnostics (errors : List DIValidationError) : List Diagnostic :=
  errors.map toDiagnostic

/-! ## `collectClassesToValidate`

The source recurses over `config.parentConfigs` with no base case other than
the list running out; the `visitedSet` parameter is passed along unchanged
and never read or written.  The recursion is embedded with fuel (`none`
models non-termination).  Alongside the source's returned map the embedding
carries a trace of the symbols of the configurations whose body was entered,
in order, so that statements about duplicated processing can be made; the
trace does not influence the computed map. -/

/-- The loop over `config.parentConfigs` inside `collectClassesToValidate`:
a parent absent from `allConfigs` is skipped; a present parent's classes are
collected by `collectF` (the one-level-deeper recursive call, which carries
the untouched `visitedSet` with it) and merged in under
`if (!classes.has(classSymbol))`. -/
def collectParentClasses
    (collectF : AnalyzedConfig → Option (List (Nat × RegisteredProvider) × List Nat))
    (allConfigs : List (Nat × AnalyzedConfig)) :
    List Nat → List (Nat × RegisteredProvider) →
    Option (List (Nat × RegisteredProvider) × List Nat)
  | [], classes => some (classes, [])
  | p :: ps, classes =>
    match lookupEntry allConfigs p with
    | none => collectParentClasses collectF allConfigs ps classes
    | some parentConfig =>
      match collectF parentConfig with
      | none => none
      | some (parentClasses, parentTrace) =>
        let merged := parentClasses.foldl
          (fun acc e => if hasKey acc e.1 then acc else acc ++ [e]) classes
        match collectParentClasses collectF allConfigs ps merged with
        | none => none
        | some (finalClasses, restTrace) => some (finalClasses, parentTrace ++ restTrace)

/-- `collectClassesToValidate`: local provider classes first (`Map.set`),
then each parent's classes merged with first-occurrence-wins.  The recursive
call passes `visitedSet` along unchanged, exactly as the source does (the
source never reads or writes it). -/
def collectClassesToValidate :
    Nat → AnalyzedConfig → List (Nat × AnalyzedConfig) → List Nat →
    Option (List (Nat × RegisteredProvider) × List Nat)
  | 0, _, _, _ => none
  | f + 1, config, allConfigs, visitedSet =>
    let classes := config.localProviders.foldl
      (fun acc provider =>
        match provider.providerClass with
        | some cls => mapSet acc cls provider
        | none => acc) []
    match collectParentClasses
        (fun parentConfig => collectClassesToValidate f parentConfig allConfigs visitedSet)
        allConfigs config.parentConfigs classes with
    | none => none
    | some (merged, trace) => some (merged, config.symbol :: trace)

/-! ## `resolveAllProvidedTokens`

Modelled from the spec: the body of
`ConfigurationAnalyzer.resolveAllProvidedTokens` is not among the analysed
sources (only its call site in `ValidationEngine.validateConfig` is); the
definition below follows the specification's resolution algorithm: start
from an empty mapping, recurse into each parent in `parentConfigs` guarding
against revisiting a configuration already in `visited` (the threaded set),
merge each parent's resolved mapping in first, and overlay the
configuration's own `localProviders` last, keyed by token identity. -/

/-- Modelled from the spec: the recursion over `parentConfigs` — each parent
found in `allConfigs` is resolved by `resolveF` (the one-level-deeper
recursive call) and its mapping merged in (`Map.set` semantics, ancestors
first), threading the visited set. -/
def resolveParentTokens
    (resolveF : AnalyzedConfig → List Nat →
      Option (List (Nat × RegisteredProvider) × List Nat))
    (allConfigs : List (Nat × AnalyzedConfig)) :
    List Nat → List Nat → Option (List (Nat × RegisteredProvider) × List Nat)
  | [], visited => some ([], visited)
  | p :: ps, visited =>
    match lookupEntry allConfigs p with
    | none => resolveParentTokens resolveF allConfigs ps visited
    | some parentConfig =>
      match resolveF parentConfig visited with
      | none => none
      | some (parentMap, visited') =>
        match resolveParentTokens resolveF allConfigs ps visited' with
        | none => none
        | some (restMap, visited'') =>
          some (restMap.foldl (fun acc e => mapSet acc e.1 e.2) parentMap, visited'')

/-- Modelled from the spec: `resolveAllProvidedTokens(config, allConfigs,
visited)` — the flattened effective binding set of `config`: guard against a
configuration already in `visited`, resolve the parents first, then overlay
the configuration's own `localProviders` keyed by token identity.  The
(mutable, threaded) visited set is returned alongside. -/
def resolveAllProvidedTokens :
    Nat → AnalyzedConfig → List (Nat × AnalyzedConfig) → List Nat →
    Option (List (Nat × RegisteredProvider) × List Nat)
  | 0, _, _, _ => none
  | f + 1, config, allConfigs, visited =>
    if config.symbol ∈ visited then some ([], visited)
    else
      match resolveParentTokens
          (fun parentConfig vis => resolveAllProvidedTokens f parentConfig allConfigs vis)
          allConfigs config.parentConfigs (config.symbol :: visited) with
      | none => none
      | some (merged, visited') =>
        some (config.localProviders.foldl
          (fun acc p => mapSet acc p.token.id p) merged, visited')

/-! ## `validateConfig` and `validate` -/

/-- `validateConfig`: resolve the provided tokens with a fresh visited set,
collect the classes to validate (fresh `new Set()`), then validate each
collected class that has an analysed dependency list. -/
def validateConfig (fuel : Nat) (checker : TypeChecker)
    (config : AnalyzedConfig) (allConfigs : List (Nat × AnalyzedConfig))
    (allClasses : List (Nat × AnalyzedClass)) :
    Option (List DIValidationError) :=
  match resolveAllProvidedTokens fuel config allConfigs [] with
  | none => none
  | some (providedTokens, _) =>
    match collectClassesToValidate fuel config allConfigs [] with
    | none => none
    | some (classesToValidate, _) =>
      some (classesToValidate.flatMap (fun entry =>
        match lookupEntry allClasses entry.1 with
        | none => []
        | some analyzedClass =>
          validateClassDependencies checker analyzedClass providedTokens
            entry.2 config))

/-- The phase-3 loop of `validate`: every configuration of type `'builder'`
is validated and its errors appended.  There is no exception handling around
`validateConfig`, so a validation that does not terminate (`none`) aborts the
whole pass and nothing is returned. -/
def validateBuilders (fuel : Nat) (checker : TypeChecker)
    (entries : List (Nat × AnalyzedConfig))
    (allConfigs : List (Nat × AnalyzedConfig))
    (allClasses : List (Nat × AnalyzedClass)) :
    Option (List DIValidationError) :=
  match entries with
  | [] => some []
  | (_, config) :: rest =>
    if config.type = ConfigType.builder then
      match validateConfig fuel checker config allConfigs allClasses with
      | none => none
      | some errs =>
        match validateBuilders fuel checker rest allConfigs allClasses with
        | none => none
        | some restErrs => some (errs ++ restErrs)
    else
      validateBuilders fuel checker rest allConfigs allClasses

/-- `validate` over the two collected maps (configurations by symbol,
classes by symbol): the per-builder validation loop over the whole
configuration map. -/
def validate (fuel : Nat) (checker : TypeChecker)
    (allConfigs : List (Nat × AnalyzedConfig))
    (allClasses : List (Nat × AnalyzedClass)) :
    Option (List DIValidationError) :=
  validateBuilders fuel checker allConfigs allConfigs allClasses

/-! ## Listener uniqueness -/

/-- Modelled from the spec: the duplicate-listener check — the validator
named by the spec's uniqueness invariant and scenario E is not among the
analysed sources (only configuration fixtures referencing it are).  Per the
spec, a given (event, listener) identity pair must appear at most once in a
configuration's own listeners list; a pair registered more than once yields
exactly one duplicate-listener error, represented here by the offending pair
of identities. -/
def duplicateListenerPairs (config : AnalyzedConfig) : List (Nat × Nat) :=
  let pairs := config.listeners.map (fun b => (b.event.id, b.listener.id))
  pairs.dedup.filter (fun p => 2 ≤ pairs.count p)

/-! ## Reachability in the partial-extension graph

`ReachCfg cfgs c d` says `d` is a transitive parent of `c`: some entry of
`c.parentConfigs` resolves in `cfgs` to `d`, or to an intermediate
configuration from which `d` is reachable. -/

/-- Transitive parenthood along `parentConfigs`, following only references
that resolve in the configuration map. -/
inductive ReachCfg (cfgs : List (Nat × AnalyzedConfig)) :
    AnalyzedConfig → AnalyzedConfig → Prop where
  | parent (c d : AnalyzedConfig) (pid : Nat) (hmem : pid ∈ c.parentConfigs)
      (hlook : lookupEntry cfgs pid = some d) : ReachCfg cfgs c d
  | step (c d e : AnalyzedConfig) (pid : Nat) (hmem : pid ∈ c.parentConfigs)
      (hlook : lookupEntry cfgs pid = some d) (htail : ReachCfg cfgs d e) :
      ReachCfg cfgs c e

/-- A configuration map is well formed when every stored entry is keyed by
its configuration's own symbol (the engine builds the map with
`configs.set(config.symbol, config)`). -/
def ConfigMapWF (cfgs : List (Nat × AnalyzedConfig)) : Prop :=
  ∀ e ∈ cfgs, e.2.symbol = e.1

instance (cfgs : List (Nat × AnalyzedConfig)) : Decidable (ConfigMapWF cfgs) :=
  inferInstanceAs (Decidable (∀ e ∈ cfgs, e.2.symbol = e.1))

/-! ## Concrete fixtures

A small program used by the closed counterexample/witness theorems: a
`UserService` class requiring an unbound `Logger` token, registered from a
partial in another file; a diamond of partials; a self-extending partial;
and a duplicated listener pair. -/

/-- A concrete host checker: types are assignable iff equal, rendered as
`T<n>`. -/
def exChecker : TypeChecker := ⟨fun a b => a == b, fun n => "T" ++ toString n⟩

def tokLogger : Token := ⟨100, "Logger"⟩

def tokUserService : Token := ⟨10, "UserService"⟩

/-- `UserService`'s constructor parameter #0: requires `Logger`, declared in
`service.ts`. -/
def depLogger : RequiredDependency := ⟨tokLogger, some 7, 0, ⟨"service.ts", 30, 14⟩⟩

def clsUserService : AnalyzedClass := ⟨10, "UserService", [depLogger]⟩

/-- `{ token: UserService }` registered at offset 200 of `partial.ts`. -/
def provUserServiceInPartial : RegisteredProvider :=
  ⟨tokUserService, RegistrationType.providerClass, some 10, some 5,
    some "UserService", ⟨"partial.ts", 200, 20⟩⟩

/-- The partial (symbol 2) living in `partial.ts` that registers
`UserService`. -/
def cfgPartial : AnalyzedConfig :=
  ⟨2, ConfigType.partialCfg, none, some "servicesPartial", "partial.ts",
    [provUserServiceInPartial], [], []⟩

/-- The builder (symbol 1) living in `app.ts` that extends the partial and
binds nothing itself. -/
def cfgBuilder : AnalyzedConfig :=
  ⟨1, ConfigType.builder, some "app", some "config", "app.ts", [], [], [2]⟩

def exConfigs : List (Nat × AnalyzedConfig) := [(1, cfgBuilder), (2, cfgPartial)]

def exClasses : List (Nat × AnalyzedClass) := [(10, clsUserService)]

/-- `{ token: Repo }`-style provider-class binding registered in `p0.ts`. -/
def provP0 : RegisteredProvider :=
  ⟨⟨300, "Repo"⟩, RegistrationType.providerClass, some 30, some 6, some "Repo",
    ⟨"p0.ts", 10, 5⟩⟩

/-- The shared ancestor of the diamond. -/
def cfgP0 : AnalyzedConfig := ⟨20, ConfigType.partialCfg, none, none, "p0.ts", [provP0], [], []⟩

def cfgP1 : AnalyzedConfig := ⟨21, ConfigType.partialCfg, none, none, "p1.ts", [], [], [20]⟩

def cfgP2 : AnalyzedConfig := ⟨22, ConfigType.partialCfg, none, none, "p2.ts", [], [], [20]⟩

/-- The builder extending both arms of the diamond. -/
def cfgDiamond : AnalyzedConfig :=
  ⟨23, ConfigType.builder, some "d", none, "d.ts", [], [], [21, 22]⟩

def diamondConfigs : List (Nat × AnalyzedConfig) :=
  [(20, cfgP0), (21, cfgP1), (22, cfgP2), (23, cfgDiamond)]

/-- A partial that extends itself: a cyclic extension graph. -/
def cfgLoop : AnalyzedConfig := ⟨40, ConfigType.partialCfg, none, none, "loop.ts", [], [], [40]⟩

/-- A builder pulling in the cyclic partial. -/
def cfgBad : AnalyzedConfig := ⟨41, ConfigType.builder, some "bad", none, "bad.ts", [], [], [40]⟩

/-- An unrelated, well-formed builder with one missing dependency. -/
def cfgGood : AnalyzedConfig :=
  ⟨42, ConfigType.builder, some "good", none, "good.ts", [provUserServiceInPartial], [], []⟩

def loopConfigs : List (Nat × AnalyzedConfig) := [(41, cfgBad), (40, cfgLoop), (42, cfgGood)]

/-- A builder registering the same (event, listener) pair twice. -/
def cfgListenersTwice : AnalyzedConfig :=
  ⟨50, ConfigType.builder, some "l", none, "l.ts", [],
    [⟨⟨60, "Ev"⟩, ⟨61, "Li"⟩⟩, ⟨⟨60, "Ev"⟩, ⟨61, "Li"⟩⟩], []⟩

/-- A provider-class binding for `Logger` whose output type (8) differs from
the expected type (7): a type mismatch under `exChecker`. -/
def provLoggerBad : RegisteredProvider :=
  ⟨tokLogger, RegistrationType.providerClass, some 33, some 8,
    some "ConsoleLogger", ⟨"partial.ts", 300, 25⟩⟩

/-- A factory binding for `Logger`, with a (wrong) recorded type to show the
exemption does not depend on it. -/
def provLoggerFactory : RegisteredProvider :=
  ⟨tokLogger, RegistrationType.factory, none, some 9,
    some "loggerFactory", ⟨"factory.ts", 400, 30⟩⟩

/-- A builder whose `extends` references symbol 99, absent from the
configuration map. -/
def cfgDangling : AnalyzedConfig :=
  ⟨70, ConfigType.builder, some "dangling", none, "dangling.ts",
    [provUserServiceInPartial], [], [99]⟩

/-! ## Substring facts for messages -/

/-- `mentions msg sub`: `sub` occurs contiguously inside `msg`. -/
def mentions (msg sub : String) : Prop := sub.data <:+: msg.data

instance (msg sub : String) : Decidable (mentions msg sub) :=
  inferInstanceAs (Decidable (sub.data <:+: msg.data))

theorem mentions_refl (s : String) : mentions s s := ⟨[], [], by simp⟩

theorem mentions_append_left (a b sub : String) (h : mentions a sub) :
    mentions (a ++ b) sub := by
  obtain ⟨u, v, huv⟩ := h
  exact ⟨u, v ++ b.data, by rw [String.data_append, ← huv]; simp⟩

theorem mentions_append_right (a b sub : String) (h : mentions b sub) :
    mentions (a ++ b) sub := by
  obtain ⟨u, v, huv⟩ := h
  exact ⟨a.data ++ u, v, by rw [String.data_append, ← huv]; simp⟩

/-! ## Association-list map lemmas -/

theorem lookupEntry_mem {β : Type} :
    ∀ (m : List (Nat × β)) (k : Nat) (v : β), lookupEntry m k = some v → (k, v) ∈ m := by
  intro m
  induction m with
  | nil => intro k v h; simp [lookupEntry] at h
  | cons e rest ih =>
    intro k v h
    obtain ⟨k', v'⟩ := e
    by_cases hk : k' = k
    · subst hk
      simp [lookupEntry] at h
      subst h
      exact List.mem_cons_self _ _
    · simp [lookupEntry, hk] at h
      exact List.mem_cons_of_mem _ (ih k v h)

theorem lookupEntry_mapSet_self {β : Type} :
    ∀ (m : List (Nat × β)) (k : Nat) (v : β), lookupEntry (mapSet m k v) k = some v := by
  intro m
  induction m with
  | nil => intro k v; simp [mapSet, lookupEntry]
  | cons e rest ih =>
    intro k v
    obtain ⟨k', v'⟩ := e
    by_cases hk : k' = k
    · simp [mapSet, hk, lookupEntry]
    · simp [mapSet, hk, lookupEntry, ih]

theorem lookupEntry_mapSet_ne {β : Type} :
    ∀ (m : List (Nat × β)) (k j : Nat) (v : β), j ≠ k →
      lookupEntry (mapSet m k v) j = lookupEntry m j := by
  intro m
  induction m with
  | nil => intro k j v hj; simp [mapSet, lookupEntry, Ne.symm hj]
  | cons e rest ih =>
    intro k j v hj
    obtain ⟨k', v'⟩ := e
    by_cases hk : k' = k
    · subst hk
      simp [mapSet, lookupEntry, Ne.symm hj]
    · by_cases hkj : k' = j
      · simp [mapSet, hk, lookupEntry, hkj, hj]
      · simp [mapSet, hk, lookupEntry, hkj, ih _ _ _ hj]

theorem lookupEntry_mapSet_isSome {β : Type} (m : List (Nat × β)) (k j : Nat) (v : β)
    (h : (lookupEntry m j).isSome) : (lookupEntry (mapSet m k v) j).isSome := by
  by_cases hk : j = k
  · subst hk; rw [lookupEntry_mapSet_self]; rfl
  · rwa [lookupEntry_mapSet_ne _ _ _ _ hk]

theorem lookupEntry_foldl_mapSet_isSome {α β : Type} (key : α → Nat) (val : α → β) :
    ∀ (l : List α) (base : List (Nat × β)) (j : Nat), (lookupEntry base j).isSome →
      (lookupEntry (l.foldl (fun acc x => mapSet acc (key x) (val x)) base) j).isSome := by
  intro l
  induction l with
  | nil => intro base j h; simpa using h
  | cons x xs ih =>
    intro base j h
    simp only [List.foldl_cons]
    exact ih _ _ (lookupEntry_mapSet_isSome _ _ _ _ h)

theorem lookupEntry_foldl_mapSet_mem {α β : Type} (key : α → Nat) (val : α → β) :
    ∀ (l : List α) (base : List (Nat × β)) (x : α), x ∈ l →
      (lookupEntry (l.foldl (fun acc x => mapSet acc (key x) (val x)) base) (key x)).isSome := by
  intro l
  induction l with
  | nil => intro base x h; simp at h
  | cons y ys ih =>
    intro base x h
    simp only [List.foldl_cons]
    rcases List.mem_cons.mp h with hx | hx
    · subst hx
      exact lookupEntry_foldl_mapSet_isSome key val ys _ _
        (by rw [lookupEntry_mapSet_self]; rfl)
    · exact ih _ _ hx

theorem lookupEntry_foldl_mapSet_not_mem {α β : Type} (key : α → Nat) (val : α → β) :
    ∀ (l : List α) (base : List (Nat × β)) (j : Nat), (∀ x ∈ l, key x ≠ j) →
      lookupEntry (l.foldl (fun acc x => mapSet acc (key x) (val x)) base) j =
        lookupEntry base j := by
  intro l
  induction l with
  | nil => intro base j _; rfl
  | cons y ys ih =>
    intro base j h
    simp only [List.foldl_cons]
    rw [ih _ _ (fun x hx => h x (List.mem_cons_of_mem _ hx)),
      lookupEntry_mapSet_ne _ _ _ _ (fun hj => h y (List.mem_cons_self _ _) hj.symm)]

theorem lookupEntry_foldl_mapSet_wins {α β : Type} (key : α → Nat) (val : α → β) :
    ∀ (l : List α) (base : List (Nat × β)) (x : α), x ∈ l →
      ∃ y, y ∈ l ∧ key y = key x ∧
        lookupEntry (l.foldl (fun acc x => mapSet acc (key x) (val x)) base) (key x) =
          some (val y) := by
  intro l
  induction l with
  | nil => intro base x h; simp at h
  | cons z zs ih =>
    intro base x h
    by_cases hzs : ∃ w ∈ zs, key w = key x
    · obtain ⟨w, hw, hkw⟩ := hzs
      obtain ⟨y, hy, hky, hlook⟩ := ih (mapSet base (key z) (val z)) w hw
      refine ⟨y, List.mem_cons_of_mem _ hy, hky.trans hkw, ?_⟩
      rw [← hkw]
      simpa using hlook
    · push_neg at hzs
      have hx : x = z := by
        rcases List.mem_cons.mp h with hx | hx
        · exact hx
        · exact absurd rfl (hzs x hx)
      subst hx
      refine ⟨x, List.mem_cons_self _ _, rfl, ?_⟩
      simp only [List.foldl_cons]
      rw [lookupEntry_foldl_mapSet_not_mem key val zs _ _
        (fun w hw => hzs w hw), lookupEntry_mapSet_self]

/-! ## Claim theorems -/

/-- C3: for every dependency whose token resolves to a binding of
registration kind factory or value, the type-compatibility check returns no
error and the dependency contributes no diagnostic at all, regardless of the
binding's recorded type. -/
theorem claim3_factory_value_exempt (checker : TypeChecker)
    (dependency : RequiredDependency) (registeredProvider : RegisteredProvider)
    (analyzedClass : AnalyzedClass) (config : AnalyzedConfig)
    (providedTokens : List (Nat × RegisteredProvider)) (provider : RegisteredProvider)
    (hreg : lookupEntry providedTokens dependency.token.id = some registeredProvider)
    (hkind : registeredProvider.registrationType = RegistrationType.factory ∨
      registeredProvider.registrationType = RegistrationType.value) :
    checkTypeCompatibility checker dependency registeredProvider analyzedClass config
      = none ∧
    dependencyErrors checker providedTokens analyzedClass provider config dependency
      = [] := by
  have hchk : checkTypeCompatibility checker dependency registeredProvider
      analyzedClass config = none := by
    cases het : dependency.expectedType with
    | none => simp [checkTypeCompatibility, het]
    | some et =>
      cases hpt : registeredProvider.providerType with
      | none => simp [checkTypeCompatibility, het, hpt]
      | some pt =>
        rcases hkind with h | h <;> simp [checkTypeCompatibility, het, hpt, h]
  exact ⟨hchk, by simp [dependencyErrors, hreg, hchk]⟩

/-- Witness for C3: a factory binding for `Logger` with a wrong recorded
type produces no diagnostic for `UserService`'s `Logger` dependency. -/
theorem claim3_factory_value_exempt_witness :
    checkTypeCompatibility exChecker depLogger provLoggerFactory clsUserService
      cfgBuilder = none ∧
    dependencyErrors exChecker [(100, provLoggerFactory)] clsUserService
      provUserServiceInPartial cfgBuilder depLogger = [] :=
  claim3_factory_value_exempt exChecker depLogger provLoggerFactory clsUserService
    cfgBuilder [(100, provLoggerFactory)] provUserServiceInPartial (by decide)
    (Or.inl (by decide))

/-- C9: inside one class validation, each required dependency contributes at
most one diagnostic: exactly the missing-dependency error when its token id
is absent from the resolved binding map, and otherwise exactly the (at most
one) result of the type-compatibility check — never both; and the class's
error list is the in-order concatenation of the per-dependency
contributions. -/
theorem claim9_at_most_one_per_dependency (checker : TypeChecker)
    (providedTokens : List (Nat × RegisteredProvider)) (analyzedClass : AnalyzedClass)
    (provider : RegisteredProvider) (config : AnalyzedConfig)
    (dependency : RequiredDependency) :
    (dependencyErrors checker providedTokens analyzedClass provider config
      dependency).length ≤ 1 ∧
    (lookupEntry providedTokens dependency.token.id = none →
      dependencyErrors checker providedTokens analyzedClass provider config dependency
        = [createMissingDependencyError analyzedClass dependency provider config]) ∧
    (∀ rp, lookupEntry providedTokens dependency.token.id = some rp →
      dependencyErrors checker providedTokens analyzedClass provider config dependency
        = (checkTypeCompatibility checker dependency rp analyzedClass config).toList) ∧
    validateClassDependencies checker analyzedClass providedTokens provider config
      = analyzedClass.dependencies.flatMap
          (dependencyErrors checker providedTokens analyzedClass provider config) := by
  refine ⟨?_, ?_, ?_, rfl⟩
  · unfold dependencyErrors
    cases lookupEntry providedTokens dependency.token.id with
    | none => simp
    | some rp =>
      cases hc : checkTypeCompatibility checker dependency rp analyzedClass config with
      | none => simp [hc]
      | some e => simp [hc]
  · intro h; simp [dependencyErrors, h]
  · intro rp h; simp [dependencyErrors, h]

/-- Witness for C9: with an empty binding map, `UserService`'s `Logger`
dependency contributes exactly its missing-dependency error. -/
theorem claim9_at_most_one_per_dependency_witness :
    dependencyErrors exChecker [] clsUserService provUserServiceInPartial
      cfgBuilder depLogger
      = [createMissingDependencyError clsUserService depLogger
          provUserServiceInPartial cfgBuilder] :=
  (claim9_at_most_one_per_dependency exChecker [] clsUserService
    provUserServiceInPartial cfgBuilder depLogger).2.1 (by decide)

/-- The fixed fields of every diagnostic `toDiagnostic` produces. -/
theorem toDiagnostic_fields (e : DIValidationError) :
    (toDiagnostic e).code = 90001 ∧
    (toDiagnostic e).source = some "di-validator" ∧
    (toDiagnostic e).category = DiagnosticCategory.error ∧
    (toDiagnostic e).messageText = e.message ∧
    (toDiagnostic e).file = e.file ∧
    (toDiagnostic e).start = e.start ∧
    (toDiagnostic e).length = e.length := by
  unfold toDiagnostic
  cases e.relatedInformation with
  | none => simp
  | some infos =>
    cases infos with
    | nil => simp
    | cons a as => simp

/-- C8: `convertToDiagnostics` maps the error list one-to-one and in order,
gives every produced diagnostic the fixed rule identity (code 90001, source
`di-validator`, error category) and the error's own message and primary
location, attaches the converted related locations when present and
non-empty, and maps the empty list to the empty list. -/
theorem claim8_convert_diagnostics (errors : List DIValidationError) :
    (convertToDiagnostics errors).length = errors.length ∧
    (∀ i (h : i < errors.length) (h2 : i < (convertToDiagnostics errors).length),
      (convertToDiagnostics errors).get ⟨i, h2⟩ = toDiagnostic (errors.get ⟨i, h⟩)) ∧
    (∀ e : DIValidationError,
      (toDiagnostic e).code = 90001 ∧
      (toDiagnostic e).source = some "di-validator" ∧
      (toDiagnostic e).category = DiagnosticCategory.error ∧
      (toDiagnostic e).messageText = e.message ∧
      (toDiagnostic e).file = e.file ∧
      (toDiagnostic e).start = e.start ∧
      (toDiagnostic e).length = e.length ∧
      (∀ infos, e.relatedInformation = some infos → infos ≠ [] →
        ∃ rs, (toDiagnostic e).relatedInformation = some rs ∧
          rs.length = infos.length ∧
          ∀ r ∈ rs, r.code = 90001 ∧ r.category = DiagnosticCategory.message)) ∧
    convertToDiagnostics [] = [] := by
  refine ⟨List.length_map _ _, ?_, ?_, rfl⟩
  · intro i h h2
    simp [convertToDiagnostics]
  · intro e
    obtain ⟨h1, h2, h3, h4, h5, h6, h7⟩ := toDiagnostic_fields e
    refine ⟨h1, h2, h3, h4, h5, h6, h7, ?_⟩
    intro infos hinfos hne
    cases infos with
    | nil => exact absurd rfl hne
    | cons a as =>
      refine ⟨(a :: as).map (fun info =>
        ⟨info.file, info.start, info.length, info.message,
          DiagnosticCategory.message, 90001⟩), ?_, by simp, ?_⟩
      · simp [toDiagnostic, hinfos]
      · intro r hr
        obtain ⟨info, _, hinfo⟩ := List.mem_map.mp hr
        exact ⟨by rw [← hinfo], by rw [← hinfo]⟩

/-- Witness for C8: converting the concrete missing-dependency error yields
one diagnostic with the fixed rule identity and one related location. -/
theorem claim8_convert_diagnostics_witness :
    (convertToDiagnostics [createMissingDependencyError clsUserService depLogger
      provUserServiceInPartial cfgBuilder]).length = 1 ∧
    (toDiagnostic (createMissingDependencyError clsUserService depLogger
      provUserServiceInPartial cfgBuilder)).code = 90001 := by
  have h := claim8_convert_diagnostics [createMissingDependencyError clsUserService
    depLogger provUserServiceInPartial cfgBuilder]
  exact ⟨h.1, (h.2.2.1 (createMissingDependencyError clsUserService depLogger
    provUserServiceInPartial cfgBuilder)).1⟩

/-- C2: for a dependency whose token resolves to a provider-class binding
with a recorded output type and a statically known expected type, the
type-compatibility check reports exactly one error iff the provider's output
type is not assignable to the expected type; the error is anchored at the
provider's registration node in the file where the registration appears,
its message names both rendered types, the class, the token and the
parameter ordinal, and it carries a related location at the parameter
declaration; when the types are assignable nothing is reported. -/
theorem claim2_type_mismatch_iff (checker : TypeChecker)
    (dependency : RequiredDependency) (registeredProvider : RegisteredProvider)
    (analyzedClass : AnalyzedClass) (config : AnalyzedConfig) (pt et : Nat)
    (hkind : registeredProvider.registrationType = RegistrationType.providerClass)
    (hpt : registeredProvider.providerType = some pt)
    (het : dependency.expectedType = some et) :
    (checker.isTypeAssignableTo pt et = true →
      checkTypeCompatibility checker dependency registeredProvider analyzedClass config
        = none) ∧
    (checker.isTypeAssignableTo pt et = false →
      (checkTypeCompatibility checker dependency registeredProvider analyzedClass
        config).isSome) ∧
    (checker.isTypeAssignableTo pt et = false → ∀ err,
      checkTypeCompatibility checker dependency registeredProvider analyzedClass config
        = some err →
      err.file = registeredProvider.node.file ∧
      err.start = registeredProvider.node.start ∧
      err.length = registeredProvider.node.width ∧
      mentions err.message (checker.typeToString et) ∧
      mentions err.message (checker.typeToString pt) ∧
      mentions err.message analyzedClass.name ∧
      mentions err.message dependency.token.displayName ∧
      mentions err.message (toString dependency.parameterIndex) ∧
      err.relatedInformation = some [⟨dependency.parameterNode.file,
        dependency.parameterNode.start, dependency.parameterNode.width,
        "The type '" ++ checker.typeToString et ++ "' is expected here"⟩]) ∧
    (∀ providedTokens provider,
      lookupEntry providedTokens dependency.token.id = some registeredProvider →
      (dependencyErrors checker providedTokens analyzedClass provider config
        dependency).length
        = if checker.isTypeAssignableTo pt et then 0 else 1) := by
  refine ⟨?_, ?_, ?_, ?_⟩
  · intro hc
    simp [checkTypeCompatibility, het, hpt, hkind, hc]
  · intro hc
    simp [checkTypeCompatibility, het, hpt, hkind, hc]
  · intro hc err heq
    rw [checkTypeCompatibility] at heq
    rw [het, hpt] at heq
    simp only [hkind, hc] at heq
    norm_num at heq
    obtain ⟨-, heq⟩ := heq
    subst heq
    refine ⟨rfl, rfl, rfl, ?_, ?_, ?_, ?_, ?_, rfl⟩
    · -- expected type name, last occurrence (piece 18 of 19)
      apply mentions_append_left
      apply mentions_append_right
      exact mentions_refl _
    · -- provider type name (piece 15 of 19)
      apply mentions_append_left
      apply mentions_append_left
      apply mentions_append_left
      apply mentions_append_left
      apply mentions_append_right
      exact mentions_refl _
    · -- class name (piece 3 of 19)
      iterate 16 apply mentions_append_left
      apply mentions_append_right
      exact mentions_refl _
    · -- token display name (piece 7 of 19)
      iterate 12 apply mentions_append_left
      apply mentions_append_right
      exact mentions_refl _
    · -- parameter ordinal (piece 9 of 19)
      iterate 10 apply mentions_append_left
      apply mentions_append_right
      exact mentions_refl _
  · intro providedTokens provider hlook
    cases hc : checker.isTypeAssignableTo pt et with
    | true => simp [dependencyErrors, hlook, checkTypeCompatibility, het, hpt, hkind, hc]
    | false => simp [dependencyErrors, hlook, checkTypeCompatibility, het, hpt, hkind, hc]

/-- Witness for C2: `Logger` bound to a provider class of output type 8
while parameter #0 of `UserService` expects type 7 — not assignable under
`exChecker` — yields exactly one error for that dependency, anchored in
`partial.ts` at the registration node. -/
theorem claim2_type_mismatch_iff_witness :
    (dependencyErrors exChecker [(100, provLoggerBad)] clsUserService
      provUserServiceInPartial cfgBuilder depLogger).length = 1 ∧
    ∀ err, checkTypeCompatibility exChecker depLogger provLoggerBad clsUserService
      cfgBuilder = some err → err.file = "partial.ts" := by
  have h := claim2_type_mismatch_iff exChecker depLogger provLoggerBad clsUserService
    cfgBuilder 8 7 (by decide) (by decide) (by decide)
  constructor
  · have hc := h.2.2.2 [(100, provLoggerBad)] provUserServiceInPartial (by decide)
    simpa using hc
  · intro err herr
    exact (h.2.2.1 (by decide) err herr).1

/-- C1 (code bug): validating the builder in `app.ts`, whose only provider
class comes from a partial registered in `partial.ts` and has an unbound
`Logger` dependency, emits exactly one missing-dependency diagnostic that
names the class, the token and the parameter index and carries the related
location at the constructor parameter — but its primary location pairs the
span of the registration node in `partial.ts` with the builder's file
`app.ts`: the `file` field is `config.sourceFile`, not the registration
site's file. -/
theorem claim1_missing_dependency_file_bug :
    validateConfig 10 exChecker cfgBuilder exConfigs exClasses
      = some [createMissingDependencyError clsUserService depLogger
          provUserServiceInPartial cfgBuilder] ∧
    (createMissingDependencyError clsUserService depLogger provUserServiceInPartial
      cfgBuilder).start = provUserServiceInPartial.node.start ∧
    (createMissingDependencyError clsUserService depLogger provUserServiceInPartial
      cfgBuilder).length = provUserServiceInPartial.node.width ∧
    (createMissingDependencyError clsUserService depLogger provUserServiceInPartial
      cfgBuilder).file = "app.ts" ∧
    provUserServiceInPartial.node.file = "partial.ts" ∧
    ¬ (createMissingDependencyError clsUserService depLogger provUserServiceInPartial
      cfgBuilder).file = provUserServiceInPartial.node.file ∧
    mentions (createMissingDependencyError clsUserService depLogger
      provUserServiceInPartial cfgBuilder).message "UserService" ∧
    mentions (createMissingDependencyError clsUserService depLogger
      provUserServiceInPartial cfgBuilder).message "Logger" ∧
    mentions (createMissingDependencyError clsUserService depLogger
      provUserServiceInPartial cfgBuilder).message "#0" ∧
    (createMissingDependencyError clsUserService depLogger provUserServiceInPartial
      cfgBuilder).relatedInformation
      = some [⟨"service.ts", 30, 14, "The dependency 'Logger' is required here"⟩] := by
  set_option maxRecDepth 10000 in decide

/-- C5 (code bug): in the diamond where the builder extends two partials
that both extend partial 20, `collectClassesToValidate` enters configuration
20 twice (once per path) — the `visitedSet` argument changes nothing even
when it already contains every configuration — while the resolution walk,
whose visited guard is consulted, enters each configuration exactly once. -/
theorem claim5_diamond_double_processing :
    (collectClassesToValidate 10 cfgDiamond diamondConfigs []).map
      (fun r => r.2.count 20) = some 2 ∧
    collectClassesToValidate 10 cfgDiamond diamondConfigs [20, 21, 22, 23]
      = collectClassesToValidate 10 cfgDiamond diamondConfigs [] ∧
    (resolveAllProvidedTokens 10 cfgDiamond diamondConfigs []).map
      (fun r => r.2.count 20) = some 1 := by
  decide

/-- In a duplicate-free list every member is counted exactly once. -/
theorem count_eq_one_of_nodup_mem {α : Type} [BEq α] [LawfulBEq α] :
    ∀ {xs : List α} {a : α}, xs.Nodup → a ∈ xs → xs.count a = 1 := by
  intro xs
  induction xs with
  | nil => intro a _ hmem; simp at hmem
  | cons q qs ih =>
    intro a hnd hmem
    rcases List.mem_cons.mp hmem with h | h
    · subst h
      have hz : qs.count a = 0 :=
        List.count_eq_zero.mpr (List.nodup_cons.mp hnd).1
      simp [hz]
    · have hq : a ≠ q := fun hqa => (List.nodup_cons.mp hnd).1 (hqa ▸ h)
      rw [List.count_cons_of_ne hq]
      exact ih (List.nodup_cons.mp hnd).2 h

/-- C7 (spec-modelled): a configuration registering the same (event,
listener) identity pair twice in its own listeners list yields exactly one
duplicate-listener error for that pair. -/
theorem claim7_duplicate_listener_once (config : AnalyzedConfig) (e l : Nat)
    (h : (config.listeners.map (fun b => (b.event.id, b.listener.id))).count (e, l)
      = 2) :
    (duplicateListenerPairs config).count (e, l) = 1 := by
  unfold duplicateListenerPairs
  have hmem : (e, l) ∈ (config.listeners.map
      (fun b => (b.event.id, b.listener.id))).dedup.filter
      (fun p => decide (2 ≤ (config.listeners.map
        (fun b => (b.event.id, b.listener.id))).count p)) := by
    rw [List.mem_filter, List.mem_dedup]
    refine ⟨List.count_pos_iff.mp (by omega), by simp [h]⟩
  have hnd : ((config.listeners.map
      (fun b => (b.event.id, b.listener.id))).dedup.filter
      (fun p => decide (2 ≤ (config.listeners.map
        (fun b => (b.event.id, b.listener.id))).count p))).Nodup :=
    (List.nodup_dedup _).filter _
  exact count_eq_one_of_nodup_mem hnd hmem

/-- Witness for C7: the builder registering (event 60, listener 61) twice
yields exactly one duplicate-listener error for that pair. -/
theorem claim7_duplicate_listener_once_witness :
    (duplicateListenerPairs cfgListenersTwice).count (60, 61) = 1 :=
  claim7_duplicate_listener_once cfgListenersTwice 60 61 (by decide)

/-- A parent reference absent from the configuration map is skipped by the
class-collection loop: the loop behaves as if the reference were not there. -/
theorem collectParentClasses_skip
    (collectF : AnalyzedConfig → Option (List (Nat × RegisteredProvider) × List Nat))
    (cfgs : List (Nat × AnalyzedConfig)) (pid : Nat)
    (hpid : lookupEntry cfgs pid = none) :
    ∀ (l₁ l₂ : List Nat) (classes : List (Nat × RegisteredProvider)),
      collectParentClasses collectF cfgs (l₁ ++ pid :: l₂) classes
        = collectParentClasses collectF cfgs (l₁ ++ l₂) classes := by
  intro l₁
  induction l₁ with
  | nil => intro l₂ classes; simp [collectParentClasses, hpid]
  | cons q qs ih =>
    intro l₂ classes
    simp only [List.cons_append]
    cases hq : lookupEntry cfgs q with
    | none => simp [collectParentClasses, hq, ih]
    | some pc =>
      cases hf : collectF pc with
      | none => simp [collectParentClasses, hq, hf]
      | some pr =>
        obtain ⟨pcls, ptr⟩ := pr
        simp [collectParentClasses, hq, hf, ih]

/-- A parent reference absent from the configuration map is skipped by the
token-resolution loop: the loop behaves as if the reference were not there. -/
theorem resolveParentTokens_skip
    (resolveF : AnalyzedConfig → List Nat →
      Option (List (Nat × RegisteredProvider) × List Nat))
    (cfgs : List (Nat × AnalyzedConfig)) (pid : Nat)
    (hpid : lookupEntry cfgs pid = none) :
    ∀ (l₁ l₂ : List Nat) (visited : List Nat),
      resolveParentTokens resolveF cfgs (l₁ ++ pid :: l₂) visited
        = resolveParentTokens resolveF cfgs (l₁ ++ l₂) visited := by
  intro l₁
  induction l₁ with
  | nil => intro l₂ visited; simp [resolveParentTokens, hpid]
  | cons q qs ih =>
    intro l₂ visited
    simp only [List.cons_append]
    cases hq : lookupEntry cfgs q with
    | none => simp [resolveParentTokens, hq, ih]
    | some pc =>
      cases hf : resolveF pc visited with
      | none => simp [resolveParentTokens, hq, hf]
      | some pr =>
        obtain ⟨pm, vis'⟩ := pr
        simp [resolveParentTokens, hq, hf, ih]

/-- A well-formed configuration map sends a successful lookup to a
configuration stored under its own symbol. -/
theorem configMapWF_lookup (cfgs : List (Nat × AnalyzedConfig))
    (hwf : ConfigMapWF cfgs) (k : Nat) (cfg : AnalyzedConfig)
    (h : lookupEntry cfgs k = some cfg) : cfg.symbol = k :=
  hwf (k, cfg) (lookupEntry_mem _ _ _ h)

/-- The parent-resolution loop only grows the threaded visited set, provided
the recursive call does. -/
theorem resolveParentTokens_visited_mono
    (resolveF : AnalyzedConfig → List Nat →
      Option (List (Nat × RegisteredProvider) × List Nat))
    (cfgs : List (Nat × AnalyzedConfig))
    (hF : ∀ pc v m v', resolveF pc v = some (m, v') → ∀ x ∈ v, x ∈ v') :
    ∀ (ps : List Nat) (v : List Nat) m v',
      resolveParentTokens resolveF cfgs ps v = some (m, v') → ∀ x ∈ v, x ∈ v' := by
  intro ps
  induction ps with
  | nil =>
    intro v m v' h x hx
    simp only [resolveParentTokens, Option.some.injEq, Prod.mk.injEq] at h
    exact h.2 ▸ hx
  | cons p ps ih =>
    intro v m v' h x hx
    cases hq : lookupEntry cfgs p with
    | none =>
      simp only [resolveParentTokens, hq] at h
      exact ih v m v' h x hx
    | some pc =>
      cases hf : resolveF pc v with
      | none => simp [resolveParentTokens, hq, hf] at h
      | some pr =>
        obtain ⟨pm, v1⟩ := pr
        cases hr : resolveParentTokens resolveF cfgs ps v1 with
        | none => simp [resolveParentTokens, hq, hf, hr] at h
        | some rr =>
          obtain ⟨rm, v2⟩ := rr
          simp only [resolveParentTokens, hq, hf, hr, Option.some.injEq,
            Prod.mk.injEq] at h
          exact h.2 ▸ ih v1 rm v2 hr x (hF pc v pm v1 hf x hx)

/-- The resolution walk only grows the threaded visited set. -/
theorem resolveAll_visited_mono :
    ∀ (fuel : Nat) (c : AnalyzedConfig) (cfgs : List (Nat × AnalyzedConfig))
      (v : List Nat) m v',
      resolveAllProvidedTokens fuel c cfgs v = some (m, v') → ∀ x ∈ v, x ∈ v' := by
  intro fuel
  induction fuel with
  | zero => intro c cfgs v m v' h; cases h
  | succ f ih =>
    intro c cfgs v m v' h x hx
    simp only [resolveAllProvidedTokens] at h
    by_cases hv : c.symbol ∈ v
    · rw [if_pos hv] at h
      simp only [Option.some.injEq, Prod.mk.injEq] at h
      exact h.2 ▸ hx
    · rw [if_neg hv] at h
      cases hr : resolveParentTokens
          (fun parentConfig vis => resolveAllProvidedTokens f parentConfig cfgs vis)
          cfgs c.parentConfigs (c.symbol :: v) with
      | none => rw [hr] at h; cases h
      | some pr =>
        obtain ⟨merged, v1⟩ := pr
        rw [hr] at h
        simp only [Option.some.injEq, Prod.mk.injEq] at h
        refine h.2 ▸ ?_
        exact resolveParentTokens_visited_mono _ cfgs
          (fun pc vv mm vv' hres => ih pc cfgs vv mm vv' hres)
          c.parentConfigs (c.symbol :: v) merged v1 hr x (List.mem_cons_of_mem _ hx)

/-- A configuration successfully resolved ends up in the returned visited
set. -/
theorem resolveAll_self_visited :
    ∀ (fuel : Nat) (c : AnalyzedConfig) (cfgs : List (Nat × AnalyzedConfig))
      (v : List Nat) m v',
      resolveAllProvidedTokens fuel c cfgs v = some (m, v') → c.symbol ∈ v' := by
  intro fuel c cfgs v m v' h
  cases fuel with
  | zero => cases h
  | succ f =>
    simp only [resolveAllProvidedTokens] at h
    by_cases hv : c.symbol ∈ v
    · rw [if_pos hv] at h
      obtain ⟨-, hv'⟩ := Prod.mk.inj (Option.some.inj h)
      exact hv' ▸ hv
    · rw [if_neg hv] at h
      cases hr : resolveParentTokens
          (fun parentConfig vis => resolveAllProvidedTokens f parentConfig cfgs vis)
          cfgs c.parentConfigs (c.symbol :: v) with
      | none => rw [hr] at h; cases h
      | some pr =>
        obtain ⟨merged, v1⟩ := pr
        rw [hr] at h
        obtain ⟨-, hv1⟩ := Prod.mk.inj (Option.some.inj h)
        refine hv1 ▸ ?_
        exact resolveParentTokens_visited_mono _ cfgs
          (fun pc vv mm vv' hres => resolveAll_visited_mono f pc cfgs vv mm vv' hres)
          c.parentConfigs (c.symbol :: v) merged v1 hr c.symbol
          (List.mem_cons_self _ _)

/-- Every parent of the list that resolves in the configuration map is in
the visited set the parent-resolution loop returns. -/
theorem resolveParentTokens_parent_visited
    (resolveF : AnalyzedConfig → List Nat →
      Option (List (Nat × RegisteredProvider) × List Nat))
    (cfgs : List (Nat × AnalyzedConfig))
    (hFmono : ∀ pc v m v', resolveF pc v = some (m, v') → ∀ x ∈ v, x ∈ v')
    (hFself : ∀ pc v m v', resolveF pc v = some (m, v') → pc.symbol ∈ v') :
    ∀ (ps : List Nat) (v : List Nat) m v',
      resolveParentTokens resolveF cfgs ps v = some (m, v') →
      ∀ pid ∈ ps, ∀ pc, lookupEntry cfgs pid = some pc → pc.symbol ∈ v' := by
  intro ps
  induction ps with
  | nil => intro v m v' h pid hpid; simp at hpid
  | cons p ps ih =>
    intro v m v' h pid hpid pc hpc
    cases hq : lookupEntry cfgs p with
    | none =>
      simp only [resolveParentTokens, hq] at h
      rcases List.mem_cons.mp hpid with hp | hp
      · subst hp; rw [hpc] at hq; cases hq
      · exact ih v m v' h pid hp pc hpc
    | some pc' =>
      cases hf : resolveF pc' v with
      | none => simp [resolveParentTokens, hq, hf] at h
      | some pr =>
        obtain ⟨pm, v1⟩ := pr
        cases hr : resolveParentTokens resolveF cfgs ps v1 with
        | none => simp [resolveParentTokens, hq, hf, hr] at h
        | some rr =>
          obtain ⟨rm, v2⟩ := rr
          simp only [resolveParentTokens, hq, hf, hr, Option.some.injEq,
            Prod.mk.injEq] at h
          rcases List.mem_cons.mp hpid with hp | hp
          · subst hp
            rw [hpc] at hq
            cases hq
            exact h.2 ▸ resolveParentTokens_visited_mono resolveF cfgs hFmono
              ps v1 rm v2 hr pc.symbol (hFself pc v pm v1 hf)
          · exact h.2 ▸ ih v1 rm v2 hr pid hp pc hpc

/-- Invariant of the parent-resolution loop: the local tokens of every
configuration newly added to the visited set are keys of the returned
mapping — provided the recursive call maintains this. -/
theorem resolveParentTokens_tokens_invariant
    (resolveF : AnalyzedConfig → List Nat →
      Option (List (Nat × RegisteredProvider) × List Nat))
    (cfgs : List (Nat × AnalyzedConfig)) (hwf : ConfigMapWF cfgs)
    (hF : ∀ pc v m v', lookupEntry cfgs pc.symbol = some pc →
      resolveF pc v = some (m, v') →
      ∀ d ∈ v', d ∉ v → ∀ dc, lookupEntry cfgs d = some dc →
        ∀ q ∈ dc.localProviders, (lookupEntry m q.token.id).isSome)
    (hFmono : ∀ pc v m v', resolveF pc v = some (m, v') → ∀ x ∈ v, x ∈ v') :
    ∀ (ps : List Nat) (v : List Nat) m v',
      resolveParentTokens resolveF cfgs ps v = some (m, v') →
      ∀ d ∈ v', d ∉ v → ∀ dc, lookupEntry cfgs d = some dc →
        ∀ q ∈ dc.localProviders, (lookupEntry m q.token.id).isSome := by
  intro ps
  induction ps with
  | nil =>
    intro v m v' h d hd hdv dc hdc q hq
    simp only [resolveParentTokens, Option.some.injEq, Prod.mk.injEq] at h
    exact absurd (h.2 ▸ hd) hdv
  | cons p ps ih =>
    intro v m v' h d hd hdv dc hdc q hq
    cases hq' : lookupEntry cfgs p with
    | none =>
      simp only [resolveParentTokens, hq'] at h
      exact ih v m v' h d hd hdv dc hdc q hq
    | some pc =>
      cases hf : resolveF pc v with
      | none => simp [resolveParentTokens, hq', hf] at h
      | some pr =>
        obtain ⟨pm, v1⟩ := pr
        cases hr : resolveParentTokens resolveF cfgs ps v1 with
        | none => simp [resolveParentTokens, hq', hf, hr] at h
        | some rr =>
          obtain ⟨rm, v2⟩ := rr
          simp only [resolveParentTokens, hq', hf, hr, Option.some.injEq,
            Prod.mk.injEq] at h
          obtain ⟨hm, hv2⟩ := h
          subst hm
          subst hv2
          by_cases hd1 : d ∈ v1
          · have hpcsym : pc.symbol = p := configMapWF_lookup cfgs hwf p pc hq'
            have hlookpc : lookupEntry cfgs pc.symbol = some pc := by
              rw [hpcsym]; exact hq'
            have hsome := hF pc v pm v1 hlookpc hf d hd1 hdv dc hdc q hq
            exact lookupEntry_foldl_mapSet_isSome (fun e => e.1) (fun e => e.2)
              rm pm _ hsome
          · have hsome := ih v1 rm v2 hr d hd hd1 dc hdc q hq
            obtain ⟨val, hval⟩ := Option.isSome_iff_exists.mp hsome
            have hmm : (q.token.id, val) ∈ rm := lookupEntry_mem rm q.token.id val hval
            exact lookupEntry_foldl_mapSet_mem (fun e => e.1) (fun e => e.2)
              rm pm (q.token.id, val) hmm

/-- Invariant of the resolution walk: the local tokens of every
configuration newly added to the visited set are keys of the returned
mapping. -/
theorem resolveAll_tokens_invariant :
    ∀ (fuel : Nat) (cfgs : List (Nat × AnalyzedConfig)), ConfigMapWF cfgs →
    ∀ (c : AnalyzedConfig) (v : List Nat) m v',
      lookupEntry cfgs c.symbol = some c →
      resolveAllProvidedTokens fuel c cfgs v = some (m, v') →
      ∀ d ∈ v', d ∉ v → ∀ dc, lookupEntry cfgs d = some dc →
        ∀ q ∈ dc.localProviders, (lookupEntry m q.token.id).isSome := by
  intro fuel
  induction fuel with
  | zero => intro cfgs hwf c v m v' hc h; cases h
  | succ f ih =>
    intro cfgs hwf c v m v' hc h d hd hdv dc hdc q hq
    simp only [resolveAllProvidedTokens] at h
    by_cases hv : c.symbol ∈ v
    · rw [if_pos hv] at h
      simp only [Option.some.injEq, Prod.mk.injEq] at h
      exact absurd (h.2 ▸ hd) hdv
    · rw [if_neg hv] at h
      cases hr : resolveParentTokens
          (fun parentConfig vis => resolveAllProvidedTokens f parentConfig cfgs vis)
          cfgs c.parentConfigs (c.symbol :: v) with
      | none => rw [hr] at h; cases h
      | some pr =>
        obtain ⟨merged, v1⟩ := pr
        rw [hr] at h
        simp only [Option.some.injEq, Prod.mk.injEq] at h
        obtain ⟨hm, hv1⟩ := h
        subst hm
        subst hv1
        by_cases hdc' : d = c.symbol
        · have hdcc : dc = c := by
            rw [hdc'] at hdc
            exact Option.some.inj (hdc.symm.trans hc)
          subst hdcc
          exact lookupEntry_foldl_mapSet_mem (fun pp => pp.token.id) (fun pp => pp)
            dc.localProviders merged q hq
        · have hdnotin : d ∉ c.symbol :: v := by
            intro hmm
            rcases List.mem_cons.mp hmm with h1 | h1
            · exact hdc' h1
            · exact hdv h1
          have hsome := resolveParentTokens_tokens_invariant _ cfgs hwf
            (fun pc vv mm vv' hlook hres => ih cfgs hwf pc vv mm vv' hlook hres)
            (fun pc vv mm vv' hres => resolveAll_visited_mono f pc cfgs vv mm vv' hres)
            c.parentConfigs (c.symbol :: v) merged v1 hr d hd hdnotin dc hdc q hq
          exact lookupEntry_foldl_mapSet_isSome (fun pp => pp.token.id) (fun pp => pp)
            c.localProviders merged _ hsome

/-- Closure of the parent-resolution loop: every resolvable parent reference
of a configuration newly added to the visited set is itself in the returned
visited set — provided the recursive call maintains this. -/
theorem resolveParentTokens_closure
    (resolveF : AnalyzedConfig → List Nat →
      Option (List (Nat × RegisteredProvider) × List Nat))
    (cfgs : List (Nat × AnalyzedConfig)) (hwf : ConfigMapWF cfgs)
    (hFclosure : ∀ pc v m v', lookupEntry cfgs pc.symbol = some pc →
      resolveF pc v = some (m, v') →
      ∀ d ∈ v', d ∉ v → ∀ dc, lookupEntry cfgs d = some dc →
        ∀ pid ∈ dc.parentConfigs, ∀ pc2, lookupEntry cfgs pid = some pc2 →
          pc2.symbol ∈ v')
    (hFmono : ∀ pc v m v', resolveF pc v = some (m, v') → ∀ x ∈ v, x ∈ v') :
    ∀ (ps : List Nat) (v : List Nat) m v',
      resolveParentTokens resolveF cfgs ps v = some (m, v') →
      ∀ d ∈ v', d ∉ v → ∀ dc, lookupEntry cfgs d = some dc →
        ∀ pid ∈ dc.parentConfigs, ∀ pc2, lookupEntry cfgs pid = some pc2 →
          pc2.symbol ∈ v' := by
  intro ps
  induction ps with
  | nil =>
    intro v m v' h d hd hdv
    simp only [resolveParentTokens, Option.some.injEq, Prod.mk.injEq] at h
    exact absurd (h.2 ▸ hd) hdv
  | cons p ps ih =>
    intro v m v' h d hd hdv dc hdc pid hpid pc2 hpc2
    cases hq' : lookupEntry cfgs p with
    | none =>
      simp only [resolveParentTokens, hq'] at h
      exact ih v m v' h d hd hdv dc hdc pid hpid pc2 hpc2
    | some pc =>
      cases hf : resolveF pc v with
      | none => simp [resolveParentTokens, hq', hf] at h
      | some pr =>
        obtain ⟨pm, v1⟩ := pr
        cases hr : resolveParentTokens resolveF cfgs ps v1 with
        | none => simp [resolveParentTokens, hq', hf, hr] at h
        | some rr =>
          obtain ⟨rm, v2⟩ := rr
          simp only [resolveParentTokens, hq', hf, hr, Option.some.injEq,
            Prod.mk.injEq] at h
          obtain ⟨-, hv2⟩ := h
          subst hv2
          by_cases hd1 : d ∈ v1
          · have hpcsym : pc.symbol = p := configMapWF_lookup cfgs hwf p pc hq'
            have hlookpc : lookupEntry cfgs pc.symbol = some pc := by
              rw [hpcsym]; exact hq'
            have hin := hFclosure pc v pm v1 hlookpc hf d hd1 hdv dc hdc pid hpid
              pc2 hpc2
            exact resolveParentTokens_visited_mono resolveF cfgs hFmono
              ps v1 rm v2 hr pc2.symbol hin
          · exact ih v1 rm v2 hr d hd hd1 dc hdc pid hpid pc2 hpc2

/-- Closure of the resolution walk: every resolvable parent reference of a
configuration newly added to the visited set is itself in the returned
visited set. -/
theorem resolveAll_closure :
    ∀ (fuel : Nat) (cfgs : List (Nat × AnalyzedConfig)), ConfigMapWF cfgs →
    ∀ (c : AnalyzedConfig) (v : List Nat) m v',
      lookupEntry cfgs c.symbol = some c →
      resolveAllProvidedTokens fuel c cfgs v = some (m, v') →
      ∀ d ∈ v', d ∉ v → ∀ dc, lookupEntry cfgs d = some dc →
        ∀ pid ∈ dc.parentConfigs, ∀ pc2, lookupEntry cfgs pid = some pc2 →
          pc2.symbol ∈ v' := by
  intro fuel
  induction fuel with
  | zero => intro cfgs hwf c v m v' hc h; cases h
  | succ f ih =>
    intro cfgs hwf c v m v' hc h d hd hdv dc hdc pid hpid pc2 hpc2
    simp only [resolveAllProvidedTokens] at h
    by_cases hv : c.symbol ∈ v
    · rw [if_pos hv] at h
      simp only [Option.some.injEq, Prod.mk.injEq] at h
      exact absurd (h.2 ▸ hd) hdv
    · rw [if_neg hv] at h
      cases hr : resolveParentTokens
          (fun parentConfig vis => resolveAllProvidedTokens f parentConfig cfgs vis)
          cfgs c.parentConfigs (c.symbol :: v) with
      | none => rw [hr] at h; cases h
      | some pr =>
        obtain ⟨merged, v1⟩ := pr
        rw [hr] at h
        simp only [Option.some.injEq, Prod.mk.injEq] at h
        obtain ⟨-, hv1⟩ := h
        subst hv1
        by_cases hdc' : d = c.symbol
        · have hdcc : dc = c := by
            rw [hdc'] at hdc
            exact Option.some.inj (hdc.symm.trans hc)
          subst hdcc
          exact resolveParentTokens_parent_visited _ cfgs
            (fun pc vv mm vv' hres => resolveAll_visited_mono f pc cfgs vv mm vv' hres)
            (fun pc vv mm vv' hres => resolveAll_self_visited f pc cfgs vv mm vv' hres)
            dc.parentConfigs (dc.symbol :: v) merged v1 hr pid hpid pc2 hpc2
        · have hdnotin : d ∉ c.symbol :: v := by
            intro hmm
            rcases List.mem_cons.mp hmm with h1 | h1
            · exact hdc' h1
            · exact hdv h1
          exact resolveParentTokens_closure _ cfgs hwf
            (fun pc vv mm vv' hlook hres => ih cfgs hwf pc vv mm vv' hlook hres)
            (fun pc vv mm vv' hres => resolveAll_visited_mono f pc cfgs vv mm vv' hres)
            c.parentConfigs (c.symbol :: v) merged v1 hr d hd hdnotin dc hdc
            pid hpid pc2 hpc2

/-- A transitive parent reached through the configuration map is stored
under its own symbol. -/
theorem reach_lookup (cfgs : List (Nat × AnalyzedConfig)) (hwf : ConfigMapWF cfgs) :
    ∀ {a b : AnalyzedConfig}, ReachCfg cfgs a b →
      lookupEntry cfgs b.symbol = some b := by
  intro a b h
  induction h with
  | parent c d pid hmem hlook =>
    have hd : d.symbol = pid := configMapWF_lookup cfgs hwf pid d hlook
    rw [hd]; exact hlook
  | step c d e pid hmem hlook htail ihtail => exact ihtail

/-- Walking a closed visited set: if `a` is visited and every resolvable
parent reference of a visited configuration is visited, then everything
reachable from `a` is visited. -/
theorem reach_visited (cfgs : List (Nat × AnalyzedConfig)) (hwf : ConfigMapWF cfgs)
    (v' : List Nat)
    (hclosed : ∀ d ∈ v', ∀ dc, lookupEntry cfgs d = some dc →
      ∀ pid ∈ dc.parentConfigs, ∀ pc2, lookupEntry cfgs pid = some pc2 →
        pc2.symbol ∈ v') :
    ∀ {a b : AnalyzedConfig}, ReachCfg cfgs a b → a.symbol ∈ v' →
      lookupEntry cfgs a.symbol = some a → b.symbol ∈ v' := by
  intro a b h
  induction h with
  | parent c d pid hmem hlook =>
    intro ha hla
    exact hclosed c.symbol ha c hla pid hmem d hlook
  | step c d e pid hmem hlook htail ihtail =>
    intro ha hla
    have hd : d.symbol ∈ v' := hclosed c.symbol ha c hla pid hmem d hlook
    have hld : lookupEntry cfgs d.symbol = some d := by
      have := configMapWF_lookup cfgs hwf pid d hlook
      rw [this]; exact hlook
    exact ihtail hd hld

/-- C4 (spec-modelled): the resolved mapping of a configuration contains
every locally bound token; it contains every token bound in any transitive
parent reachable through the configuration map; and a token bound locally is
mapped to one of the configuration's own local providers for that token —
own bindings, overlaid last, win over inherited ones. -/
theorem claim4_resolve_tokens_correct (fuel : Nat)
    (cfgs : List (Nat × AnalyzedConfig)) (c : AnalyzedConfig)
    (m : List (Nat × RegisteredProvider)) (v' : List Nat)
    (hwf : ConfigMapWF cfgs) (hc : lookupEntry cfgs c.symbol = some c)
    (hres : resolveAllProvidedTokens fuel c cfgs [] = some (m, v')) :
    (∀ p ∈ c.localProviders, (lookupEntry m p.token.id).isSome) ∧
    (∀ d, ReachCfg cfgs c d → ∀ q ∈ d.localProviders,
      (lookupEntry m q.token.id).isSome) ∧
    (∀ p ∈ c.localProviders, ∃ p', p' ∈ c.localProviders ∧
      p'.token.id = p.token.id ∧ lookupEntry m p.token.id = some p') := by
  have hself : c.symbol ∈ v' := resolveAll_self_visited fuel c cfgs [] m v' hres
  have hclosed : ∀ d ∈ v', ∀ dc, lookupEntry cfgs d = some dc →
      ∀ pid ∈ dc.parentConfigs, ∀ pc2, lookupEntry cfgs pid = some pc2 →
        pc2.symbol ∈ v' := by
    intro d hd dc hdc pid hpid pc2 hpc2
    exact resolveAll_closure fuel cfgs hwf c [] m v' hc hres d hd (by simp)
      dc hdc pid hpid pc2 hpc2
  have hreachmem : ∀ d, ReachCfg cfgs c d → ∀ q ∈ d.localProviders,
      (lookupEntry m q.token.id).isSome := by
    intro d hreach q hq
    have hdv : d.symbol ∈ v' := reach_visited cfgs hwf v' hclosed hreach hself hc
    exact resolveAll_tokens_invariant fuel cfgs hwf c [] m v' hc hres d.symbol hdv
      (by simp) d (reach_lookup cfgs hwf hreach) q hq
  have hoverlay : ∃ merged, m = c.localProviders.foldl
      (fun acc p => mapSet acc p.token.id p) merged := by
    cases fuel with
    | zero => cases hres
    | succ f =>
      simp only [resolveAllProvidedTokens] at hres
      rw [if_neg (by simp)] at hres
      cases hr : resolveParentTokens
          (fun parentConfig vis => resolveAllProvidedTokens f parentConfig cfgs vis)
          cfgs c.parentConfigs (c.symbol :: []) with
      | none => rw [hr] at hres; cases hres
      | some pr =>
        obtain ⟨merged, v1⟩ := pr
        rw [hr] at hres
        simp only [Option.some.injEq, Prod.mk.injEq] at hres
        exact ⟨merged, hres.1.symm⟩
  obtain ⟨merged, hm⟩ := hoverlay
  subst hm
  refine ⟨?_, hreachmem, ?_⟩
  · intro p hp
    exact lookupEntry_foldl_mapSet_mem (fun pp => pp.token.id) (fun pp => pp)
      c.localProviders merged p hp
  · intro p hp
    obtain ⟨y, hy, hky, hlook⟩ := lookupEntry_foldl_mapSet_wins
      (fun pp => pp.token.id) (fun pp => pp) c.localProviders merged p hp
    exact ⟨y, hy, hky, hlook⟩

/-- Witness for C4: resolving the diamond builder yields the mapping
`[(300, provP0)]`, and the token bound by the shared transitive ancestor is
present in it. -/
theorem claim4_resolve_tokens_correct_witness :
    (lookupEntry [((300 : Nat), provP0)] provP0.token.id).isSome := by
  have h := claim4_resolve_tokens_correct 10 diamondConfigs cfgDiamond
    [(300, provP0)] [22, 20, 21, 23] (by decide) (by decide) (by decide)
  have hreach : ReachCfg diamondConfigs cfgDiamond cfgP0 :=
    ReachCfg.step cfgDiamond cfgP1 cfgP0 21 (by decide) (by decide)
      (ReachCfg.parent cfgP1 cfgP0 20 (by decide) (by decide))
  exact h.2.1 cfgP0 hreach provP0 (by decide)

/-- C10: an identity listed in `parentConfigs` with no entry in the
collected configuration map is silently skipped: class collection, token
resolution and the whole per-configuration validation behave exactly as if
the dangling `extends` reference were absent — no class is pulled in through
it and no diagnostic of any kind is emitted for it. -/
theorem claim10_dangling_parent_skipped (fuel : Nat) (checker : TypeChecker)
    (cfgs : List (Nat × AnalyzedConfig)) (classes : List (Nat × AnalyzedClass))
    (cfg : AnalyzedConfig) (pid : Nat) (l₁ l₂ : List Nat)
    (hpid : lookupEntry cfgs pid = none)
    (hparents : cfg.parentConfigs = l₁ ++ pid :: l₂) :
    (∀ visitedSet, collectClassesToValidate fuel cfg cfgs visitedSet
      = collectClassesToValidate fuel { cfg with parentConfigs := l₁ ++ l₂ }
          cfgs visitedSet) ∧
    (∀ visited, resolveAllProvidedTokens fuel cfg cfgs visited
      = resolveAllProvidedTokens fuel { cfg with parentConfigs := l₁ ++ l₂ }
          cfgs visited) ∧
    validateConfig fuel checker cfg cfgs classes
      = validateConfig fuel checker { cfg with parentConfigs := l₁ ++ l₂ }
          cfgs classes := by
  have hcol : ∀ visitedSet, collectClassesToValidate fuel cfg cfgs visitedSet
      = collectClassesToValidate fuel { cfg with parentConfigs := l₁ ++ l₂ }
          cfgs visitedSet := by
    intro visitedSet
    cases fuel with
    | zero => rfl
    | succ f =>
      simp only [collectClassesToValidate]
      rw [hparents, collectParentClasses_skip _ _ _ hpid]
  have hres : ∀ visited, resolveAllProvidedTokens fuel cfg cfgs visited
      = resolveAllProvidedTokens fuel { cfg with parentConfigs := l₁ ++ l₂ }
          cfgs visited := by
    intro visited
    cases fuel with
    | zero => rfl
    | succ f =>
      simp only [resolveAllProvidedTokens]
      rw [hparents, resolveParentTokens_skip _ _ _ hpid]
  refine ⟨hcol, hres, ?_⟩
  unfold validateConfig
  rw [hres [], hcol []]
  rfl

/-- Witness for C10: the builder extending the absent symbol 99 validates
exactly as the same builder without the dangling reference. -/
theorem claim10_dangling_parent_skipped_witness :
    validateConfig 10 exChecker cfgDangling exConfigs exClasses
      = validateConfig 10 exChecker { cfgDangling with parentConfigs := [] ++ [] }
          exConfigs exClasses :=
  (claim10_dangling_parent_skipped 10 exChecker exConfigs exClasses cfgDangling
    99 [] [] (by decide) (by decide)).2.2

/-- Class collection on the self-extending partial diverges: `none` at every
fuel bound. -/
theorem collect_loop_none : ∀ (fuel : Nat) (vs : List Nat),
    collectClassesToValidate fuel cfgLoop loopConfigs vs = none := by
  intro fuel
  induction fuel with
  | zero => intro vs; rfl
  | succ f ih =>
    intro vs
    simp only [cfgLoop, loopConfigs] at ih
    simp [collectClassesToValidate, collectParentClasses, cfgLoop, loopConfigs,
      lookupEntry, ih]

/-- Class collection on the builder that pulls in the self-extending partial
diverges at every fuel bound. -/
theorem collect_bad_none : ∀ (fuel : Nat),
    collectClassesToValidate fuel cfgBad loopConfigs [] = none := by
  intro fuel
  cases fuel with
  | zero => rfl
  | succ f =>
    have ih := collect_loop_none f ([] : List Nat)
    simp only [cfgLoop, cfgBad, loopConfigs] at ih
    simp [collectClassesToValidate, collectParentClasses, cfgBad, cfgLoop,
      loopConfigs, lookupEntry, ih]

/-- Validating the builder with cyclic ancestry never terminates (its class
collection diverges even though the guarded token resolution succeeds). -/
theorem validateConfig_bad_none : ∀ (fuel : Nat),
    validateConfig fuel exChecker cfgBad loopConfigs exClasses = none := by
  intro fuel
  unfold validateConfig
  cases hres : resolveAllProvidedTokens fuel cfgBad loopConfigs [] with
  | none => rfl
  | some pr => simp [collect_bad_none fuel]

/-- The whole pass over the loop program returns nothing at every fuel
bound: the first builder's divergence aborts `validate` before the
well-formed builder is reached. -/
theorem validate_loop_none : ∀ (fuel : Nat),
    validate fuel exChecker loopConfigs exClasses = none := by
  intro fuel
  have hbad := validateConfig_bad_none fuel
  simp only [cfgBad, loopConfigs] at hbad
  simp [validate, validateBuilders, loopConfigs, cfgBad, hbad]

/-- Counterexample to C6: in the program holding the builder `bad` (which
extends a self-extending partial, so its class collection diverges) and the
independent well-formed builder `good` (one missing dependency), the whole
pass returns nothing — while the same pass over `good` alone returns its
missing-dependency diagnostic.  One configuration's failure suppressed
another configuration's diagnostics. -/
theorem claim6_one_failure_aborts_pass :
    validate 100 exChecker loopConfigs exClasses = none ∧
    validate 100 exChecker [(42, cfgGood)] exClasses
      = some [createMissingDependencyError clsUserService depLogger
          provUserServiceInPartial cfgGood] :=
  ⟨validate_loop_none 100, by set_option maxRecDepth 10000 in decide⟩

/-- C6 (amended): `validate` has no exception containment.  When every
builder configuration's validation terminates, the pass returns the in-order
concatenation of the per-configuration error lists and every configuration's
diagnostics appear in the result, so terminating configurations cannot
suppress one another; but a configuration whose class collection diverges
(a builder pulling in a self-extending partial) aborts the entire pass at
every fuel bound, and no configuration's diagnostics are returned. -/
theorem claim6_amended_independence :
    (∀ (fuel : Nat) (checker : TypeChecker)
      (entries cfgsAll : List (Nat × AnalyzedConfig))
      (classes : List (Nat × AnalyzedClass)),
      (∀ e ∈ entries, e.2.type = ConfigType.builder →
        (validateConfig fuel checker e.2 cfgsAll classes).isSome) →
      ∃ res, validateBuilders fuel checker entries cfgsAll classes = some res ∧
        ∀ e ∈ entries, e.2.type = ConfigType.builder →
          ∀ errs, validateConfig fuel checker e.2 cfgsAll classes = some errs →
            errs <:+: res) ∧
    (∀ fuel, validate fuel exChecker loopConfigs exClasses = none) := by
  constructor
  · intro fuel checker entries cfgsAll classes
    induction entries with
    | nil =>
      intro _
      exact ⟨[], rfl, by intro e he; simp at he⟩
    | cons a rest ih =>
      intro hyp
      obtain ⟨k, config⟩ := a
      obtain ⟨res, hres, hmem⟩ :=
        ih (fun e he hbe => hyp e (List.mem_cons_of_mem _ he) hbe)
      by_cases hb : config.type = ConfigType.builder
      · have hsome := hyp (k, config) (List.mem_cons_self _ _) hb
        obtain ⟨errs0, herrs0⟩ := Option.isSome_iff_exists.mp hsome
        refine ⟨errs0 ++ res, ?_, ?_⟩
        · simp [validateBuilders, hb, herrs0, hres]
        · intro e he hbe errs herrs
          rcases List.mem_cons.mp he with h1 | h1
          · subst h1
            have heq : errs0 = errs := Option.some.inj (herrs0.symm.trans herrs)
            subst heq
            exact ⟨[], res, by simp⟩
          · obtain ⟨s, t, hst⟩ := hmem e h1 hbe errs herrs
            exact ⟨errs0 ++ s, t, by rw [← hst]; simp⟩
      · refine ⟨res, ?_, ?_⟩
        · simp [validateBuilders, hb, hres]
        · intro e he hbe errs herrs
          rcases List.mem_cons.mp he with h1 | h1
          · subst h1
            exact absurd hbe hb
          · exact hmem e h1 hbe errs herrs
  · exact validate_loop_none

set_option maxRecDepth 10000 in
/-- Witness for C6 (amended): over the one-builder program `good`, the pass
succeeds and the builder's missing-dependency diagnostic appears in the
returned list. -/
theorem claim6_amended_independence_witness :
    ∃ res, validateBuilders 100 exChecker [(42, cfgGood)] [(42, cfgGood)] exClasses
      = some res ∧
      [createMissingDependencyError clsUserService depLogger provUserServiceInPartial
        cfgGood] <:+: res := by
  obtain ⟨res, hres, hmem⟩ := claim6_amended_independence.1 100 exChecker
    [(42, cfgGood)] [(42, cfgGood)] exClasses (by decide)
  exact ⟨res, hres, hmem (42, cfgGood) (by decide) (by decide)
    [createMissingDependencyError clsUserService depLogger provUserServiceInPartial
      cfgGood] (by decide)⟩

end WireDI
